import Mathlib

/-!
Shallow embedding of the graphiti_server FastAPI service
(src/graph_service/routers/ingest.py, src/graph_service/routers/retrieve.py,
src/graph_service/dto/*.py) and verification of the frozen claims about it.

Python strings are modelled as Lean `String` (or `List Char` where character
level slicing/splitting is involved); `datetime` values are abstracted by
their ISO-8601 rendering, which is the only observation the service makes of
them (`.isoformat()` and pass-through).
-/

namespace GraphitiServer

/-- A `datetime` value, abstracted by its ISO-8601 rendering: the routers only
pass timestamps through unchanged or render them with `.isoformat()`. -/
structure DateTime where
  isoformat : String
deriving DecidableEq, Repr

/-- `graphiti_core.nodes.EpisodeType`; the routers use `message` and `text`. -/
inductive EpisodeType
  | message
  | text
  | json
deriving DecidableEq, Repr

/-- DTO `Result` from src/graph_service/dto/common.py. -/
structure Result where
  message : String
  success : Bool
deriving DecidableEq, Repr

/-- DTO `Message` from src/graph_service/dto/common.py.  `role_type` is a
pydantic `Literal['user','assistant','system']` (a `str` subtype); for the
rendering claims its string value is all that matters. -/
structure Message where
  content : String
  uuid : Option String
  name : String
  role_type : String
  role : Option String
  timestamp : DateTime
  source_description : String
deriving DecidableEq, Repr

/-- DTO `AddTextEpisodeRequest` from src/graph_service/dto/ingest.py. -/
structure AddTextEpisodeRequest where
  group_id : String
  name : String
  content : String
  source_description : String
  reference_time : DateTime
deriving DecidableEq, Repr

/-- DTO `AddConversationEpisodeRequest` from src/graph_service/dto/ingest.py. -/
structure AddConversationEpisodeRequest where
  group_id : String
  name : String
  messages : List Message
  source_description : String
  reference_time : DateTime
deriving DecidableEq, Repr

/-- DTO `AddDocumentRequest` from src/graph_service/dto/ingest.py. -/
structure AddDocumentRequest where
  group_id : String
  name : String
  content : String
  source_description : String
  reference_time : DateTime
deriving DecidableEq, Repr

/-- One call to `graphiti.add_episode(...)`, recording the keyword arguments
the ingest handlers pass (ingest.py lines 79-86, 93-100, 112-119). -/
structure EpisodeCall where
  name : String
  episode_body : String
  source : EpisodeType
  source_description : String
  reference_time : DateTime
  group_id : String
deriving DecidableEq, Repr

/-- Observable outcome of running an ingest route handler to completion:
the `graphiti.add_episode` calls it awaited inline, the jobs it put on
`async_worker.queue` (the source contains no `queue.put` call, so every
handler below produces an empty list here), and the returned `Result`.
The handler returns only after the awaited engine calls have completed. -/
structure HandlerOutcome where
  engineEpisodeCalls : List EpisodeCall
  enqueuedJobs : List EpisodeCall
  result : Result
deriving DecidableEq, Repr

/-- Python renders `None` as the string `None` inside an f-string. -/
def renderOptRole : Option String → String
  | some r => r
  | none => "None"

/-- The per-message f-string of ingest.py line 74:
`f"{m.role}({m.role_type}): {m.content} (Timestamp: {m.timestamp.isoformat()})"`. -/
def messageLine (m : Message) : String :=
  renderOptRole m.role ++ "(" ++ m.role_type ++ "): " ++ m.content ++
    " (Timestamp: " ++ m.timestamp.isoformat ++ ")"

/-- `conversation_text = "\n".join(...)` of ingest.py lines 73-76. -/
def conversationText (msgs : List Message) : String :=
  String.intercalate "\n" (msgs.map messageLine)

/-- Handler `add_conversation` (ingest.py lines 70-89): awaits one
`add_episode` call with the flattened conversation, then returns success. -/
def add_conversation (r : AddConversationEpisodeRequest) : HandlerOutcome :=
  { engineEpisodeCalls :=
      [{ name := r.name
         episode_body := conversationText r.messages
         source := EpisodeType.message
         source_description := r.source_description
         reference_time := r.reference_time
         group_id := r.group_id }]
    enqueuedJobs := []
    result := { message := "Conversation episode added successfully", success := true } }

/-- Handler `add_text_episode` (ingest.py lines 91-101): awaits one
`add_episode` call with the request content, then returns success. -/
def add_text_episode (r : AddTextEpisodeRequest) : HandlerOutcome :=
  { engineEpisodeCalls :=
      [{ name := r.name
         episode_body := r.content
         source := EpisodeType.text
         source_description := r.source_description
         reference_time := r.reference_time
         group_id := r.group_id }]
    enqueuedJobs := []
    result := { message := "Text episode added successfully", success := true } }

/-- Structural helper for `dividir_em_partes`: `fuel` bounds the recursion
depth (any `fuel ≥ texto.length` gives the chunking, since each step with
`limite > 0` drops at least one character). -/
def dividirAux (limite : Nat) : Nat → List Char → List (List Char)
  | _, [] => []
  | 0, _ :: _ => []
  | fuel + 1, c :: cs => (c :: cs).take limite :: dividirAux limite fuel ((c :: cs).drop limite)

/-- `dividir_em_partes` (ingest.py lines 106-107):
`[texto[i:i + limite] for i in range(0, len(texto), limite)]`, the text as a
char list.  The `limite = 0` guard only serves totality; the source always
calls it with the default `limite = 5000` (Python `range` with step 0 would
raise). -/
def dividir_em_partes (texto : List Char) (limite : Nat := 5000) : List (List Char) :=
  if limite = 0 then [] else dividirAux limite texto.length texto

theorem dividirAux_nil (limite fuel : Nat) : dividirAux limite fuel [] = [] := by
  cases fuel <;> rfl

/-- The fuel argument is irrelevant once it bounds the text length. -/
theorem dividirAux_fuel (limite : Nat) (hl : 0 < limite) :
    ∀ fuel fuel' texto, texto.length ≤ fuel → texto.length ≤ fuel' →
      dividirAux limite fuel texto = dividirAux limite fuel' texto := by
  intro fuel
  induction fuel with
  | zero =>
    intro fuel' texto h h'
    rw [List.length_eq_zero.mp (Nat.le_zero.mp h), dividirAux_nil, dividirAux_nil]
  | succ f ih =>
    intro fuel' texto h h'
    cases texto with
    | nil => rw [dividirAux_nil, dividirAux_nil]
    | cons c cs =>
      cases fuel' with
      | zero => simp at h'
      | succ f' =>
        show (c :: cs).take limite :: dividirAux limite f ((c :: cs).drop limite) =
          (c :: cs).take limite :: dividirAux limite f' ((c :: cs).drop limite)
        have hd : ((c :: cs).drop limite).length ≤ f := by
          simp only [List.length_drop, List.length_cons]
          simp only [List.length_cons] at h
          omega
        have hd' : ((c :: cs).drop limite).length ≤ f' := by
          simp only [List.length_drop, List.length_cons]
          simp only [List.length_cons] at h'
          omega
        rw [ih f' _ hd hd']

theorem dividir_em_partes_nil (limite : Nat) : dividir_em_partes [] limite = [] := by
  unfold dividir_em_partes
  split <;> simp [dividirAux_nil]

theorem dividir_em_partes_cons (texto : List Char) (limite : Nat)
    (ht : texto ≠ []) (hl : limite ≠ 0) :
    dividir_em_partes texto limite =
      texto.take limite :: dividir_em_partes (texto.drop limite) limite := by
  unfold dividir_em_partes
  rw [if_neg hl, if_neg hl]
  cases texto with
  | nil => exact absurd rfl ht
  | cons c cs =>
    show (c :: cs).take limite :: dividirAux limite cs.length ((c :: cs).drop limite) =
      (c :: cs).take limite :: dividirAux limite ((c :: cs).drop limite).length ((c :: cs).drop limite)
    rw [dividirAux_fuel limite (by omega) cs.length (((c :: cs).drop limite).length) _ ?_ le_rfl]
    simp only [List.length_drop, List.length_cons]
    omega

/-- Each produced chunk is nonempty and has length at most `limite`. -/
theorem dividir_em_partes_chunk_bounds (texto : List Char) (limite : Nat)
    (hl : 0 < limite) :
    ∀ c ∈ dividir_em_partes texto limite, c ≠ [] ∧ c.length ≤ limite := by
  unfold dividir_em_partes
  rw [if_neg (by omega : ¬ limite = 0)]
  have key : ∀ fuel t, t.length ≤ fuel →
      ∀ c ∈ dividirAux limite fuel t, c ≠ [] ∧ c.length ≤ limite := by
    intro fuel
    induction fuel with
    | zero =>
      intro t h c hc
      rw [List.length_eq_zero.mp (Nat.le_zero.mp h), dividirAux_nil] at hc
      cases hc
    | succ f ih =>
      intro t h c hc
      cases t with
      | nil => rw [dividirAux_nil] at hc; cases hc
      | cons a as =>
        rcases List.mem_cons.mp hc with hc | hc
        · subst hc
          refine ⟨by simp; omega, ?_⟩
          simp
        · refine ih ((a :: as).drop limite) ?_ c hc
          simp only [List.length_drop, List.length_cons]
          simp only [List.length_cons] at h
          omega
  exact key texto.length texto le_rfl

/-- Concatenating the chunks in order restores the original text. -/
theorem dividir_em_partes_join (texto : List Char) (limite : Nat)
    (hl : 0 < limite) :
    (dividir_em_partes texto limite).flatten = texto := by
  unfold dividir_em_partes
  rw [if_neg (by omega : ¬ limite = 0)]
  have key : ∀ fuel t, t.length ≤ fuel → (dividirAux limite fuel t).flatten = t := by
    intro fuel
    induction fuel with
    | zero =>
      intro t h
      rw [List.length_eq_zero.mp (Nat.le_zero.mp h), dividirAux_nil]
      rfl
    | succ f ih =>
      intro t h
      cases t with
      | nil => rw [dividirAux_nil]; rfl
      | cons a as =>
        show ((a :: as).take limite :: dividirAux limite f ((a :: as).drop limite)).flatten = a :: as
        rw [List.flatten_cons, ih ((a :: as).drop limite) ?_, List.take_append_drop]
        simp only [List.length_drop, List.length_cons]
        simp only [List.length_cons] at h
        omega
  exact key texto.length texto le_rfl

/-- The number of chunks is `⌈len/limite⌉`, computed as `(len + limite - 1) / limite`. -/
theorem dividir_em_partes_length (texto : List Char) (limite : Nat)
    (hl : 0 < limite) :
    (dividir_em_partes texto limite).length = (texto.length + limite - 1) / limite := by
  unfold dividir_em_partes
  rw [if_neg (by omega : ¬ limite = 0)]
  have key : ∀ fuel t, t.length ≤ fuel →
      (dividirAux limite fuel t).length = (t.length + limite - 1) / limite := by
    intro fuel
    induction fuel with
    | zero =>
      intro t h
      rw [List.length_eq_zero.mp (Nat.le_zero.mp h), dividirAux_nil]
      have hv : limite - 1 < limite := by omega
      simp [Nat.div_eq_of_lt hv]
    | succ f ih =>
      intro t h
      cases t with
      | nil =>
        rw [dividirAux_nil]
        have hv : limite - 1 < limite := by omega
        simp [Nat.div_eq_of_lt hv]
      | cons a as =>
        show ((a :: as).take limite :: dividirAux limite f ((a :: as).drop limite)).length =
          ((a :: as).length + limite - 1) / limite
        have hfd : ((a :: as).drop limite).length ≤ f := by
          simp only [List.length_drop, List.length_cons]
          simp only [List.length_cons] at h
          omega
        rw [List.length_cons, ih ((a :: as).drop limite) hfd]
        simp only [List.length_drop, List.length_cons]
        rcases le_or_lt (as.length + 1) limite with hle | hlt
        · have h1 : as.length + 1 - limite = 0 := by omega
          rw [h1]
          have h2 : (0 + limite - 1) / limite = 0 := Nat.div_eq_of_lt (by omega)
          rw [h2]
          have h3 : as.length + 1 + limite - 1 = (as.length + 1 - 1) + 1 * limite := by omega
          rw [h3, Nat.add_mul_div_right _ _ hl, Nat.div_eq_of_lt (by omega)]
        · have h3 : as.length + 1 - limite + limite - 1 = as.length + 1 - 1 := by omega
          have h4 : as.length + 1 + limite - 1 = as.length + 1 - 1 + limite := by omega
          rw [h3, h4, Nat.add_div_right _ hl]
  exact key texto.length texto le_rfl

/-- Handler `add_document` (ingest.py lines 104-124): chunks the content with
`dividir_em_partes`, awaits one `add_episode` call per chunk (named
`f'{request.name} - Parte {i + 1}'`, source `text`), then returns a success
`Result` whose message reports `len(partes)`. -/
def add_document (r : AddDocumentRequest) : HandlerOutcome :=
  let partes := (dividir_em_partes r.content.data 5000).map String.mk
  { engineEpisodeCalls :=
      partes.enum.map (fun p =>
        { name := r.name ++ " - Parte " ++ toString (p.1 + 1)
          episode_body := p.2
          source := EpisodeType.text
          source_description := r.source_description
          reference_time := r.reference_time
          group_id := r.group_id })
    enqueuedJobs := []
    result :=
      { message := toString partes.length ++
          " partes do documento adicionadas com sucesso ao grupo " ++ r.group_id ++ "."
        success := true } }

/-! ### Claim C2 — document chunking -/

/-- Claim C2: for every document content of length `L` and the default chunk
size `C = 5000`, `dividir_em_partes` produces `⌈L/C⌉ = (L + C - 1) / C`
chunks, each nonempty of length at most `C`, whose in-order concatenation is
the original content; empty content yields zero chunks, and `add_document`
then performs no engine call and reports zero parts in its message. -/
theorem claim_C2 (l : List Char) (r : AddDocumentRequest) :
    (dividir_em_partes l 5000).length = (l.length + 5000 - 1) / 5000 ∧
    (∀ c ∈ dividir_em_partes l 5000, c ≠ [] ∧ c.length ≤ 5000) ∧
    (dividir_em_partes l 5000).flatten = l ∧
    (l = [] → dividir_em_partes l 5000 = []) ∧
    (r.content = "" →
      (add_document r).engineEpisodeCalls = [] ∧
      (add_document r).result.message =
        "0 partes do documento adicionadas com sucesso ao grupo " ++ r.group_id ++ ".") := by
  refine ⟨dividir_em_partes_length l 5000 (by omega),
    dividir_em_partes_chunk_bounds l 5000 (by omega),
    dividir_em_partes_join l 5000 (by omega),
    fun h => by rw [h]; exact dividir_em_partes_nil 5000,
    fun h => ?_⟩
  have hd : r.content.data = [] := by rw [h]
  constructor
  · simp [add_document, hd, dividir_em_partes_nil]
  · simp only [add_document, hd, dividir_em_partes_nil]
    rfl

/-- Witness for claim C2 at concrete inputs: the two-character content
`"ab"` splits into one chunk, and an empty document yields no engine call. -/
def c2EmptyDoc : AddDocumentRequest :=
  { group_id := "g1", name := "doc", content := "", source_description := "Document ingestion",
    reference_time := { isoformat := "2024-01-01T00:00:00" } }

theorem claim_C2_witness :
    (dividir_em_partes "ab".data 5000).flatten = "ab".data ∧
    dividir_em_partes "".data 5000 = [] ∧
    (add_document c2EmptyDoc).engineEpisodeCalls = [] :=
  ⟨(claim_C2 "ab".data c2EmptyDoc).2.2.1,
   (claim_C2 "".data c2EmptyDoc).2.2.2.1 rfl,
   ((claim_C2 "ab".data c2EmptyDoc).2.2.2.2 rfl).1⟩

/-! ### Claim C3 — conversation flattening -/

/-- Rendering of one message following the words of the spec:
one line `<role>(<role_type>): <content> (Timestamp: <isoformat-timestamp>)`
per input message (stated separately from `messageLine`, which is translated
from the source f-string, so that the refinement below is meaningful). -/
def specConversationLine (m : Message) : String :=
  renderOptRole m.role ++ "(" ++ m.role_type ++ "): " ++ m.content ++
    " (Timestamp: " ++ m.timestamp.isoformat ++ ")"

/-- Claim C3: conversation flattening produces one line per input message, in
input order, each rendered per the spec format, joined by a newline. -/
theorem claim_C3 (msgs : List Message) :
    conversationText msgs = String.intercalate "\n" (msgs.map specConversationLine) ∧
    (msgs.map specConversationLine).length = msgs.length ∧
    (∀ i : Nat, (msgs.map specConversationLine)[i]? = msgs[i]?.map specConversationLine) := by
  refine ⟨rfl, List.length_map _ _, fun i => ?_⟩
  simp

/-! ### Claim C1 — episode-creation handlers and the worker queue -/

/-- A concrete valid text-episode request. -/
def c1req : AddTextEpisodeRequest :=
  { group_id := "g1", name := "ep", content := "hello", source_description := "Text content",
    reference_time := { isoformat := "2024-01-01T00:00:00" } }

/-- Counterexample to claim C1 as stated: for the concrete valid request
`c1req`, the handler submits no job at all to the Serial Write Worker's queue
(the source contains no `queue.put`); instead it performs the
`add_episode` engine call directly and returns success afterwards. -/
theorem claim_C1_counterexample :
    ¬ (1 ≤ (add_text_episode c1req).enqueuedJobs.length) ∧
    (add_text_episode c1req).engineEpisodeCalls.length = 1 ∧
    (add_text_episode c1req).result.success = true := by
  refine ⟨?_, rfl, rfl⟩
  simp [add_text_episode, c1req]

/-- Claim C1 (amended): every episode-creation handler submits no job to the
worker queue; it awaits the engine's `add_episode` directly (once for text and
conversation, once per chunk for document) and only then returns a success
`Result`. -/
theorem claim_C1_amended (rt : AddTextEpisodeRequest) (rc : AddConversationEpisodeRequest)
    (rd : AddDocumentRequest) :
    (add_text_episode rt).enqueuedJobs = [] ∧
    (add_text_episode rt).engineEpisodeCalls.length = 1 ∧
    (add_text_episode rt).result.success = true ∧
    (add_conversation rc).enqueuedJobs = [] ∧
    (add_conversation rc).engineEpisodeCalls.length = 1 ∧
    (add_conversation rc).result.success = true ∧
    (add_document rd).enqueuedJobs = [] ∧
    (add_document rd).engineEpisodeCalls.length =
      (dividir_em_partes rd.content.data 5000).length ∧
    (add_document rd).result.success = true := by
  refine ⟨rfl, rfl, rfl, rfl, rfl, rfl, rfl, ?_, rfl⟩
  simp [add_document]

/-! ### Claim C8 — per-chunk episode naming -/

/-- Claim C8 (amended): the `i`-th chunk (0-based `i`) of a document is passed
to `add_episode` as a `text`-typed episode named
`<base name> ++ " - Parte " ++ <1-based index>` with the chunk as its body. -/
theorem claim_C8_amended (r : AddDocumentRequest) (i : Nat) :
    ((add_document r).engineEpisodeCalls)[i]? =
      ((dividir_em_partes r.content.data 5000)[i]?).map (fun parte =>
        { name := r.name ++ " - Parte " ++ toString (i + 1)
          episode_body := String.mk parte
          source := EpisodeType.text
          source_description := r.source_description
          reference_time := r.reference_time
          group_id := r.group_id }) := by
  simp only [add_document, List.getElem?_map, List.getElem?_enum]
  cases (dividir_em_partes r.content.data 5000)[i]? <;> rfl

/-- A concrete document request whose single chunk exposes the naming. -/
def c8req : AddDocumentRequest :=
  { group_id := "g1", name := "doc", content := "a", source_description := "Document ingestion",
    reference_time := { isoformat := "2024-01-01T00:00:00" } }

/-- Counterexample to claim C8 as stated: for the concrete request `c8req`
(base name `doc`, content `a`), the single submitted episode is named
`doc - Parte 1` (Portuguese `Parte`), not `doc - Part 1` as the claim says. -/
theorem claim_C8_counterexample :
    ((add_document c8req).engineEpisodeCalls.map (fun c => c.name)) = ["doc - Parte 1"] ∧
    ((add_document c8req).engineEpisodeCalls.map (fun c => c.name)) ≠ ["doc - Part 1"] := by
  constructor
  · rfl
  · decide

/-! ### Claim C6 — bearer-token authentication -/

/-- Outcome of the `verify_token` dependency: raise HTTP 401, raise HTTP 403,
or let the request through to the handler. -/
inductive AuthOutcome
  | http401
  | http403
  | passed
deriving DecidableEq, Repr

/-- Python `s.split(" ")` (explicit single-space separator, keeping empty
fields), on char lists. -/
def splitOnSpace : List Char → List (List Char)
  | [] => [[]]
  | c :: rest =>
    if c = ' ' then [] :: splitOnSpace rest
    else
      match splitOnSpace rest with
      | [] => [[c]]
      | w :: ws => (c :: w) :: ws

/-- Python `s.startswith(p)` on char lists (pattern first). -/
def startswith : List Char → List Char → Bool
  | [], _ => true
  | _ :: _, [] => false
  | p :: ps, s :: ss => p = s && startswith ps ss

/-- `verify_token` (ingest.py lines 24-29; retrieve.py lines 30-35 is the
same function): a missing, empty, or non-`Bearer ` header raises 401;
otherwise the token is `authorization.split(" ")[1]` (the guaranteed space
makes index 1 safe, modelled with `getD`) and a mismatch with the configured
`API_TOKEN` raises 403; a match passes. -/
def verify_token (authorization : Option (List Char)) (api_token : List Char) : AuthOutcome :=
  match authorization with
  | none => AuthOutcome.http401
  | some a =>
    if a = [] ∨ startswith "Bearer ".data a = false then AuthOutcome.http401
    else if (splitOnSpace a).getD 1 [] ≠ api_token then AuthOutcome.http403
    else AuthOutcome.passed

theorem splitOnSpace_ne_nil (t : List Char) : splitOnSpace t ≠ [] := by
  cases t with
  | nil => simp [splitOnSpace]
  | cons c rest =>
    simp only [splitOnSpace]
    split
    · simp
    · split <;> simp

theorem splitOnSpace_bearer (t : List Char) :
    splitOnSpace ("Bearer ".data ++ t) = "Bearer".data :: splitOnSpace t := by
  show splitOnSpace ('B' :: 'e' :: 'a' :: 'r' :: 'e' :: 'r' :: ' ' :: t) = _
  simp [splitOnSpace]

theorem splitOnSpace_no_space (t : List Char) (h : ' ' ∉ t) : splitOnSpace t = [t] := by
  induction t with
  | nil => rfl
  | cons c rest ih =>
    simp only [List.mem_cons, not_or] at h
    have hc : ¬ c = ' ' := fun he => h.1 he.symm
    simp [splitOnSpace, hc, ih h.2]

theorem startswith_append (p t : List Char) : startswith p (p ++ t) = true := by
  induction p with
  | nil => rfl
  | cons c cs ih => simp [startswith, ih]

/-- Claim C6: a missing or non-`Bearer` Authorization header is rejected with
401; a well-formed `Bearer <token>` header (token without internal spaces)
with a wrong token is rejected with 403, and with the configured secret it
passes; moreover passing is only possible when the extracted token equals the
secret. -/
theorem claim_C6 (secret a t : List Char) :
    verify_token none secret = AuthOutcome.http401 ∧
    (startswith "Bearer ".data a = false → verify_token (some a) secret = AuthOutcome.http401) ∧
    (' ' ∉ t → t ≠ secret → verify_token (some ("Bearer ".data ++ t)) secret = AuthOutcome.http403) ∧
    (' ' ∉ t → t = secret → verify_token (some ("Bearer ".data ++ t)) secret = AuthOutcome.passed) ∧
    (verify_token (some a) secret = AuthOutcome.passed → (splitOnSpace a).getD 1 [] = secret) := by
  have hnil : ("Bearer ".data ++ t) ≠ [] := by
    show ('B' :: 'e' :: 'a' :: 'r' :: 'e' :: 'r' :: ' ' :: t) ≠ []
    exact List.cons_ne_nil _ _
  have h1 : startswith "Bearer ".data ("Bearer ".data ++ t) = true := startswith_append _ _
  refine ⟨rfl, ?_, ?_, ?_, ?_⟩
  · intro h
    simp [verify_token, h]
  · intro hsp hne
    simp [verify_token, hnil, splitOnSpace_no_space t hsp, hne, startswith, splitOnSpace]
  · intro hsp heq
    subst heq
    simp [verify_token, hnil, splitOnSpace_no_space t hsp, startswith, splitOnSpace]
  · intro hp
    by_contra hne
    simp only [verify_token] at hp
    by_cases hc : a = [] ∨ startswith "Bearer ".data a = false
    · rw [if_pos hc] at hp
      cases hp
    · rw [if_neg hc, if_pos hne] at hp
      cases hp

/-- Witness for claim C6 at concrete headers and the secret `tok`. -/
theorem claim_C6_witness :
    verify_token (some ("Bearer ".data ++ "wrong".data)) "tok".data = AuthOutcome.http403 ∧
    verify_token (some ("Bearer ".data ++ "tok".data)) "tok".data = AuthOutcome.passed ∧
    verify_token (some "Basic abc".data) "tok".data = AuthOutcome.http401 ∧
    verify_token none "tok".data = AuthOutcome.http401 :=
  ⟨(claim_C6 "tok".data "Basic abc".data "wrong".data).2.2.1 (by decide) (by decide),
   (claim_C6 "tok".data "Basic abc".data "tok".data).2.2.2.1 (by decide) rfl,
   (claim_C6 "tok".data "Basic abc".data "wrong".data).2.1 (by decide),
   (claim_C6 "tok".data "Basic abc".data "wrong".data).1⟩

/-! ### AsyncWorker — claims C4, C5, C7 (ingest.py lines 32-61) -/

/-- A job submitted to `async_worker.queue`, abstracted by an identifier and
whether awaiting it raises a non-cancellation exception. -/
structure Job where
  id : Nat
  raises : Bool
deriving DecidableEq, Repr

/-- Observable events of the consumer loop: an `await job()` beginning,
completing normally, or raising. -/
inductive WorkerEvent
  | jobBegin (id : Nat)
  | jobEnd (id : Nat)
  | jobRaise (id : Nat)
deriving DecidableEq, Repr

/-- `AsyncWorker.worker` (ingest.py lines 37-43) run against a queue holding
the given jobs in FIFO submission order: `while True` it dequeues the next
job and awaits it to completion before the next `get`.  Only
`asyncio.CancelledError` is caught (breaking the loop); any other exception
raised by `await job()` propagates out of `worker`, ending the consumer task,
so nothing after a raising job is dequeued.  When the queue is exhausted the
loop blocks in `get` and emits nothing further. -/
def AsyncWorker.worker : List Job → List WorkerEvent
  | [] => []
  | j :: rest =>
    if j.raises then [WorkerEvent.jobBegin j.id, WorkerEvent.jobRaise j.id]
    else WorkerEvent.jobBegin j.id :: WorkerEvent.jobEnd j.id :: AsyncWorker.worker rest

/-- Identifiers of the jobs whose execution begins in a trace. -/
def beginsOf (evs : List WorkerEvent) : List Nat :=
  evs.filterMap (fun e =>
    match e with
    | WorkerEvent.jobBegin i => some i
    | _ => none)

/-- A trace is serial when every begun job completes (normally or by raising)
immediately, before any other job begins. -/
def serialTrace : List WorkerEvent → Bool
  | [] => true
  | WorkerEvent.jobBegin i :: WorkerEvent.jobEnd j :: rest => i == j && serialTrace rest
  | WorkerEvent.jobBegin i :: WorkerEvent.jobRaise j :: rest => i == j && serialTrace rest
  | _ => false

/-- Claim C4: the consumer loop never interleaves two jobs — each begun job
completes fully before the next begins — and the begun jobs are exactly an
initial segment of the queue in submission order (no reordering). -/
theorem claim_C4 (q : List Job) :
    (∃ k, beginsOf (AsyncWorker.worker q) = (q.map Job.id).take k) ∧
    serialTrace (AsyncWorker.worker q) = true := by
  induction q with
  | nil => exact ⟨⟨0, rfl⟩, rfl⟩
  | cons j rest ih =>
    by_cases hr : j.raises
    · refine ⟨⟨1, ?_⟩, ?_⟩
      · simp [AsyncWorker.worker, hr, beginsOf]
      · simp [AsyncWorker.worker, hr, serialTrace]
    · obtain ⟨⟨k, hk⟩, hs⟩ := ih
      refine ⟨⟨k + 1, ?_⟩, ?_⟩
      · have hb : beginsOf (AsyncWorker.worker (j :: rest)) =
            j.id :: beginsOf (AsyncWorker.worker rest) := by
          simp [AsyncWorker.worker, hr, beginsOf]
        rw [hb, hk]
        rfl
      · simp [AsyncWorker.worker, hr, serialTrace, hs]

/-- Claim C5 exhibit (code bug): with a first job that raises a
non-cancellation exception and a second ordinary job queued behind it, the
consumer loop terminates at the raise — the second job never begins and
nothing is logged — contradicting the mandated log-and-continue behaviour. -/
theorem claim_C5_worker_dies :
    AsyncWorker.worker [{ id := 1, raises := true }, { id := 2, raises := false }] =
      [WorkerEvent.jobBegin 1, WorkerEvent.jobRaise 1] ∧
    WorkerEvent.jobBegin 2 ∉
      AsyncWorker.worker [{ id := 1, raises := true }, { id := 2, raises := false }] := by
  decide

/-- State of the worker as observed across `stop`: effects of jobs already
completed, and the jobs still queued. -/
structure WorkerState where
  executedJobs : List Nat
  queued : List Job
deriving DecidableEq, Repr

/-- The drain loop of `stop` (ingest.py lines 52-53):
`while not self.queue.empty(): self.queue.get_nowait()` — every remaining job
is removed and discarded. -/
def drainQueue : List Job → List Job
  | [] => []
  | _ :: rest => drainQueue rest

/-- `AsyncWorker.stop` (ingest.py lines 48-53): cancels the consumer task and
awaits it (already-completed effects stay as they are), then drains the
queue, discarding every still-queued job without executing it. -/
def AsyncWorker.stop (s : WorkerState) : WorkerState :=
  { executedJobs := s.executedJobs, queued := drainQueue s.queued }

theorem drainQueue_eq_nil (q : List Job) : drainQueue q = [] := by
  induction q with
  | nil => rfl
  | cons a rest ih => exact ih

/-- Claim C7: after `stop`, the effects of previously completed jobs are
unchanged, the queue is empty, and no discarded job ever begins execution
(the consumer run on the post-stop queue emits no events). -/
theorem claim_C7 (s : WorkerState) :
    (AsyncWorker.stop s).executedJobs = s.executedJobs ∧
    (AsyncWorker.stop s).queued = [] ∧
    AsyncWorker.worker (AsyncWorker.stop s).queued = [] := by
  refine ⟨rfl, drainQueue_eq_nil s.queued, ?_⟩
  show AsyncWorker.worker (drainQueue s.queued) = []
  rw [drainQueue_eq_nil]
  rfl

/-! ### Claim C9 — max_facts validation (src/graph_service/dto/retrieve.py) -/

/-- `SearchQuery.max_facts`: `max_facts: int = Field(default=10, description=
'The maximum number of facts to retrieve')` — the Field declares only a
default and a description, no `gt`/`ge` constraint, so pydantic validation
accepts any provided int and substitutes 10 when the field is omitted.
`CenteredSearchQuery` inherits this field unchanged. -/
def searchQuery_max_facts (provided : Option Int) : Except String Int :=
  Except.ok (provided.getD 10)

/-- `AdvancedSearchRequest.max_facts`: `max_facts: int = Field(default=10,
description="Maximum number of facts to retrieve")` — same shape, no
positivity constraint. -/
def advancedSearch_max_facts (provided : Option Int) : Except String Int :=
  Except.ok (provided.getD 10)

/-- `AdvancedSearchV2Request.max_facts`: identical field declaration, no
positivity constraint. -/
def advancedSearchV2_max_facts (provided : Option Int) : Except String Int :=
  Except.ok (provided.getD 10)

/-- Counterexample to claim C9 as stated: `max_facts = 0` (and `-5`) pass DTO
validation for every search request type — no ValidationError is raised. -/
theorem claim_C9_counterexample :
    searchQuery_max_facts (some 0) = Except.ok 0 ∧
    searchQuery_max_facts (some (-5)) = Except.ok (-5) ∧
    advancedSearch_max_facts (some 0) = Except.ok 0 ∧
    advancedSearchV2_max_facts (some 0) = Except.ok 0 :=
  ⟨rfl, rfl, rfl, rfl⟩

/-- Claim C9 (amended): `max_facts` defaults to 10 when omitted, but the DTOs
declare no positivity constraint: any provided integer — zero or negative
included — passes validation unchanged. -/
theorem claim_C9_amended (v : Int) :
    searchQuery_max_facts (some v) = Except.ok v ∧
    searchQuery_max_facts none = Except.ok 10 ∧
    advancedSearch_max_facts (some v) = Except.ok v ∧
    advancedSearch_max_facts none = Except.ok 10 ∧
    advancedSearchV2_max_facts (some v) = Except.ok v ∧
    advancedSearchV2_max_facts none = Except.ok 10 :=
  ⟨rfl, rfl, rfl, rfl, rfl, rfl⟩

/-! ### Claim C10 — advanced search ignores max_facts (retrieve.py) -/

/-- The EDGE recipes admitted by `AdvancedSearchRequest.recipe`. -/
inductive EdgeRecipe
  | EDGE_HYBRID_SEARCH_RRF
  | EDGE_HYBRID_SEARCH_MMR
  | EDGE_HYBRID_SEARCH_NODE_DISTANCE
  | EDGE_HYBRID_SEARCH_EPISODE_MENTIONS
  | EDGE_HYBRID_SEARCH_CROSS_ENCODER
deriving DecidableEq, Repr

/-- The COMBINED recipes admitted by `AdvancedSearchV2Request.recipe`. -/
inductive CombinedRecipe
  | COMBINED_HYBRID_SEARCH_RRF
  | COMBINED_HYBRID_SEARCH_MMR
  | COMBINED_HYBRID_SEARCH_CROSS_ENCODER
deriving DecidableEq, Repr

def edgeRecipeName : EdgeRecipe → String
  | EdgeRecipe.EDGE_HYBRID_SEARCH_RRF => "EDGE_HYBRID_SEARCH_RRF"
  | EdgeRecipe.EDGE_HYBRID_SEARCH_MMR => "EDGE_HYBRID_SEARCH_MMR"
  | EdgeRecipe.EDGE_HYBRID_SEARCH_NODE_DISTANCE => "EDGE_HYBRID_SEARCH_NODE_DISTANCE"
  | EdgeRecipe.EDGE_HYBRID_SEARCH_EPISODE_MENTIONS => "EDGE_HYBRID_SEARCH_EPISODE_MENTIONS"
  | EdgeRecipe.EDGE_HYBRID_SEARCH_CROSS_ENCODER => "EDGE_HYBRID_SEARCH_CROSS_ENCODER"

def combinedRecipeName : CombinedRecipe → String
  | CombinedRecipe.COMBINED_HYBRID_SEARCH_RRF => "COMBINED_HYBRID_SEARCH_RRF"
  | CombinedRecipe.COMBINED_HYBRID_SEARCH_MMR => "COMBINED_HYBRID_SEARCH_MMR"
  | CombinedRecipe.COMBINED_HYBRID_SEARCH_CROSS_ENCODER => "COMBINED_HYBRID_SEARCH_CROSS_ENCODER"

/-- DTO `AdvancedSearchRequest` from src/graph_service/dto/retrieve.py. -/
structure AdvancedSearchRequest where
  query : String
  max_facts : Int
  group_ids : Option (List String)
  recipe : EdgeRecipe
deriving DecidableEq, Repr

/-- DTO `AdvancedSearchV2Request` from src/graph_service/dto/retrieve.py. -/
structure AdvancedSearchV2Request where
  query : String
  max_facts : Int
  group_ids : Option (List String)
  recipe : CombinedRecipe
deriving DecidableEq, Repr

/-- The `graphiti._search(query=..., group_ids=..., config=...)` invocation.
The `search_config_recipes` entries live in graphiti_core; they are
abstracted here by the recipe they come from together with the one field this
repo may modify: `limitOverride = none` means the recipe's built-in limit is
left untouched, `some n` means the handler set `config.limit = n`. -/
structure EngineSearchCall where
  query : String
  group_ids : Option (List String)
  recipe : String
  limitOverride : Option Int
deriving DecidableEq, Repr

/-- Handler `advanced_search` (retrieve.py lines 45-54): looks up the recipe
config and passes it to `graphiti._search` unmodified — `query.max_facts` is
never read. -/
def advanced_search (q : AdvancedSearchRequest) : EngineSearchCall :=
  { query := q.query
    group_ids := q.group_ids
    recipe := edgeRecipeName q.recipe
    limitOverride := none }

/-- Handler `advanced_search_v2` (retrieve.py lines 57-66): deep-copies the
recipe config and sets `config.limit = query.max_facts` before the engine
call. -/
def advanced_search_v2 (q : AdvancedSearchV2Request) : EngineSearchCall :=
  { query := q.query
    group_ids := q.group_ids
    recipe := combinedRecipeName q.recipe
    limitOverride := some q.max_facts }

/-- Claim C10: two advanced-search requests that differ only in `max_facts`
produce the identical engine call (same query, group_ids, recipe config, no
limit override) — hence identical results — whereas advanced-v2 sets the
copied config's limit to `max_facts`. -/
theorem claim_C10 (q1 q2 : AdvancedSearchRequest)
    (hq : q1.query = q2.query) (hg : q1.group_ids = q2.group_ids)
    (hr : q1.recipe = q2.recipe) :
    advanced_search q1 = advanced_search q2 ∧
    (advanced_search q1).limitOverride = none ∧
    (∀ p : AdvancedSearchV2Request, (advanced_search_v2 p).limitOverride = some p.max_facts) := by
  refine ⟨?_, rfl, fun p => rfl⟩
  simp [advanced_search, hq, hg, hr]

/-- Two concrete advanced-search requests differing only in `max_facts`. -/
def c10reqA : AdvancedSearchRequest :=
  { query := "who is alice", max_facts := 10, group_ids := none
    recipe := EdgeRecipe.EDGE_HYBRID_SEARCH_RRF }

def c10reqB : AdvancedSearchRequest :=
  { query := "who is alice", max_facts := 99, group_ids := none
    recipe := EdgeRecipe.EDGE_HYBRID_SEARCH_RRF }

theorem claim_C10_witness :
    advanced_search c10reqA = advanced_search c10reqB ∧
    (advanced_search c10reqA).limitOverride = none :=
  ⟨(claim_C10 c10reqA c10reqB rfl rfl rfl).1, (claim_C10 c10reqA c10reqB rfl rfl rfl).2.1⟩


end GraphitiServer
